import Mathlib

/-!
# Verification of the sam-search core: capability matcher and sync manager

Shallow embedding of the two core modules of the repository:

* `src/capability_matcher.py` — `CapabilityMatcher.calculate_match`,
  `CapabilityMatcher.analyze_opportunity` (together with
  `OpportunityDB.save_match` and `OpportunityDB.get_capabilities` from
  `src/database.py`);
* `src/sync_manager.py` — `SyncManager.incremental_sync`, `SyncManager.full_sync`,
  `SyncManager.search_opportunities`, `SyncManager._save_sync_state`.

Modelling conventions:

* Python strings are Lean `String`s; a dict field that may be absent is
  modelled as `""` (for strings) or `[]` (for lists) — exactly the values
  Python's `dict.get` truthiness tests treat as falsy, so `if d.get('k'):`
  becomes `if field ≠ "" then` / `if field ≠ [] then`.
* Scores are `ℚ` (Python evaluates exact small fractions here:
  `40 * (m / k)` with `m ≤ k`; the float arithmetic of the source is exact
  for the bounds and decompositions proved below up to the usual embedding
  of real-valued scores as rationals).
* Timestamps/dates are `Nat` (days); `timedelta(days=1)` is `+ 1`.
* The MongoDB collections are modelled as in-memory lists; `insert_one` is
  list append, and the unique-`url` upsert acts on a list of stored urls.
* `time.sleep(s)` is modelled by emitting `s` onto a sleep log.
-/

namespace SamSearch

/-- Test `charsLeads needle hay`: `needle` occurs at the start of `hay`
(character-list prefix test, the base step of Python's `in` on strings). -/
def charsLeads : List Char → List Char → Bool
  | [], _ => true
  | _ :: _, [] => false
  | a :: as, b :: bs => a == b && charsLeads as bs

/-- Test `charsHasSub needle hay`: Python's `needle in hay` substring test on
character lists (true for the empty needle, as in Python). -/
def charsHasSub (needle : List Char) : List Char → Bool
  | [] => charsLeads needle []
  | c :: rest => charsLeads needle (c :: rest) || charsHasSub needle rest

/-- Python's `str.lower()` followed by viewing the string as its character
sequence. -/
def pyLower (s : String) : List Char :=
  s.toList.map Char.toLower

/-- Opportunity record as read by the matcher. `description` stands for
`opportunity['raw_data']['description']`; absent fields are `""`. -/
structure Opportunity where
  id : String
  title : String
  description : String
  naics : String
  agency : String
  set_aside : String
deriving DecidableEq

/-- Capability profile as stored in the `capabilities` collection;
absent list fields are `[]`. -/
structure Capability where
  id : String
  name : String
  keywords : List String
  naics_codes : List String
  preferred_agencies : List String
  preferred_set_asides : List String
  active : Bool
deriving DecidableEq

/-- The `match_details` dict built by `calculate_match`. `value_match` is
initialised to `None` and never written, as in the source. -/
structure MatchDetails where
  keyword_matches : List String
  naics_match : Bool
  agency_match : Bool
  value_match : Option ℚ
  set_aside_match : Bool
deriving DecidableEq

/-- The dict returned by `calculate_match`. -/
structure MatchResult where
  capability_id : String
  capability_name : String
  match_percentage : ℚ
  match_details : MatchDetails
deriving DecidableEq

/-- First score block of `calculate_match` (src/capability_matcher.py
lines 33–43): the matched-keyword list and the score contribution of the
keywords factor, starting from `score = 0`. -/
def keywordStep (opportunity : Opportunity) (capability : Capability) :
    List String × ℚ :=
  let opp_text : List Char :=
    pyLower (opportunity.title ++ " " ++ opportunity.description)
  if capability.keywords ≠ [] then
    let matched_keywords :=
      capability.keywords.filter
        (fun keyword => charsHasSub (pyLower keyword) opp_text)
    if matched_keywords ≠ [] then
      (matched_keywords,
        0 + 40 * ((matched_keywords.length : ℚ) /
          (capability.keywords.length : ℚ)))
    else ([], 0)
  else ([], 0)

/-- Second score block (lines 45–49): NAICS flag and score after the NAICS
factor, given the score `s` accumulated so far. -/
def naicsStep (opportunity : Opportunity) (capability : Capability) (s : ℚ) :
    Bool × ℚ :=
  if capability.naics_codes ≠ [] ∧ opportunity.naics ≠ "" then
    if opportunity.naics ∈ capability.naics_codes then (true, s + 30)
    else (false, s)
  else (false, s)

/-- Third score block (lines 51–58): the loop over `preferred_agencies`
adds 20 and breaks at the first case-insensitive substring hit, so it
contributes 20 exactly when some preferred agency matches. -/
def agencyStep (opportunity : Opportunity) (capability : Capability) (s : ℚ) :
    Bool × ℚ :=
  if capability.preferred_agencies ≠ [] ∧ opportunity.agency ≠ "" then
    if capability.preferred_agencies.any
        (fun preferred_agency =>
          charsHasSub (pyLower preferred_agency) (pyLower opportunity.agency))
    then (true, s + 20)
    else (false, s)
  else (false, s)

/-- Fourth score block (lines 60–64): set-aside flag and score. -/
def setAsideStep (opportunity : Opportunity) (capability : Capability) (s : ℚ) :
    Bool × ℚ :=
  if capability.preferred_set_asides ≠ [] ∧ opportunity.set_aside ≠ "" then
    if opportunity.set_aside ∈ capability.preferred_set_asides then
      (true, s + 10)
    else (false, s)
  else (false, s)

/-- Shallow embedding of `CapabilityMatcher.calculate_match`
(src/capability_matcher.py lines 17–73): the four score blocks run in
sequence on the accumulator, then the score is capped at 100. -/
def calculate_match (opportunity : Opportunity) (capability : Capability) :
    MatchResult :=
  let st1 := keywordStep opportunity capability
  let st2 := naicsStep opportunity capability st1.2
  let st3 := agencyStep opportunity capability st2.2
  let st4 := setAsideStep opportunity capability st3.2
  { capability_id := capability.id
    capability_name := capability.name
    match_percentage := min st4.2 100
    match_details :=
      { keyword_matches := st1.1
        naics_match := st2.1
        agency_match := st3.1
        value_match := none
        set_aside_match := st4.1 } }

/-! ## Spec-side factor functions

These restate the factor table of the specification (§4.2) as independent
definitions, to be compared with the sequential accumulation of
`calculate_match`. Guards on opportunity fields reflect that an absent
field (modelled `""`) contributes nothing. -/

/-- The keywords of `c` that occur case-insensitively in
`title + " " + description` of `o`, in list order. -/
def matchedKeywords (o : Opportunity) (c : Capability) : List String :=
  c.keywords.filter
    (fun keyword =>
      charsHasSub (pyLower keyword) (pyLower (o.title ++ " " ++ o.description)))

/-- Keyword factor: `40 × matched/total` as soon as at least one keyword
matched, else 0. -/
def keywordFactor (o : Opportunity) (c : Capability) : ℚ :=
  if matchedKeywords o c = [] then 0
  else 40 * (((matchedKeywords o c).length : ℚ) / (c.keywords.length : ℚ))

/-- NAICS factor: exactly 30 when the opportunity has a NAICS code and it is
one of the capability's codes. -/
def naicsFactor (o : Opportunity) (c : Capability) : ℚ :=
  if o.naics ≠ "" ∧ o.naics ∈ c.naics_codes then 30 else 0

/-- Agency factor: exactly 20 (at most once) when some preferred agency is a
case-insensitive substring of the opportunity's agency. -/
def agencyFactor (o : Opportunity) (c : Capability) : ℚ :=
  if o.agency ≠ "" ∧ c.preferred_agencies.any
      (fun pa => charsHasSub (pyLower pa) (pyLower o.agency)) then 20 else 0

/-- Set-aside factor: exactly 10 on membership. -/
def setAsideFactor (o : Opportunity) (c : Capability) : ℚ :=
  if o.set_aside ≠ "" ∧ o.set_aside ∈ c.preferred_set_asides then 10 else 0

/-- The boolean recorded in `match_details.naics_match`. -/
def naicsHit (o : Opportunity) (c : Capability) : Bool :=
  o.naics != "" && c.naics_codes.contains o.naics

/-- The boolean recorded in `match_details.agency_match`. -/
def agencyHit (o : Opportunity) (c : Capability) : Bool :=
  o.agency != "" && c.preferred_agencies.any
    (fun pa => charsHasSub (pyLower pa) (pyLower o.agency))

/-- The boolean recorded in `match_details.set_aside_match`. -/
def setAsideHit (o : Opportunity) (c : Capability) : Bool :=
  o.set_aside != "" && c.preferred_set_asides.contains o.set_aside

theorem keywordStep_eq (o : Opportunity) (c : Capability) :
    keywordStep o c = (matchedKeywords o c, keywordFactor o c) := by
  unfold keywordStep keywordFactor matchedKeywords
  simp only [ne_eq]
  by_cases h1 : c.keywords = []
  · rw [if_neg (not_not_intro h1), h1]
    simp
  · rw [if_pos h1]
    by_cases h2 :
        (c.keywords.filter
          (fun keyword =>
            charsHasSub (pyLower keyword)
              (pyLower (o.title ++ " " ++ o.description)))) = []
    · rw [if_neg (not_not_intro h2), if_pos h2, h2]
    · rw [if_pos h2, if_neg h2, zero_add]

theorem naicsStep_eq (o : Opportunity) (c : Capability) (s : ℚ) :
    naicsStep o c s = (naicsHit o c, s + naicsFactor o c) := by
  unfold naicsStep naicsHit naicsFactor
  by_cases h1 : c.naics_codes = [] <;> by_cases h2 : o.naics = "" <;>
    by_cases h3 : o.naics ∈ c.naics_codes <;>
    simp_all

theorem agencyStep_eq (o : Opportunity) (c : Capability) (s : ℚ) :
    agencyStep o c s = (agencyHit o c, s + agencyFactor o c) := by
  unfold agencyStep agencyHit agencyFactor
  by_cases h1 : c.preferred_agencies = []
  · simp [h1]
  · by_cases h2 : o.agency = ""
    · simp [h1, h2]
    · by_cases h3 :
        (c.preferred_agencies.any
          (fun pa => charsHasSub (pyLower pa) (pyLower o.agency))) = true
      · simp [h1, h2, h3]
      · rw [Bool.not_eq_true] at h3
        simp [h1, h2, h3]

theorem setAsideStep_eq (o : Opportunity) (c : Capability) (s : ℚ) :
    setAsideStep o c s = (setAsideHit o c, s + setAsideFactor o c) := by
  unfold setAsideStep setAsideHit setAsideFactor
  by_cases h1 : c.preferred_set_asides = [] <;> by_cases h2 : o.set_aside = "" <;>
    by_cases h3 : o.set_aside ∈ c.preferred_set_asides <;>
    simp_all

/-- Full characterisation of `calculate_match`: the score decomposes as the
(capped) sum of the four factor functions and the details record the four
per-factor outcomes. -/
theorem calculate_match_eq (o : Opportunity) (c : Capability) :
    calculate_match o c =
      { capability_id := c.id
        capability_name := c.name
        match_percentage :=
          min (keywordFactor o c + naicsFactor o c + agencyFactor o c +
            setAsideFactor o c) 100
        match_details :=
          { keyword_matches := matchedKeywords o c
            naics_match := naicsHit o c
            agency_match := agencyHit o c
            value_match := none
            set_aside_match := setAsideHit o c } } := by
  simp only [calculate_match, keywordStep_eq, naicsStep_eq, agencyStep_eq,
    setAsideStep_eq]

theorem keywordFactor_nonneg (o : Opportunity) (c : Capability) :
    0 ≤ keywordFactor o c := by
  unfold keywordFactor
  split
  · exact le_refl 0
  · positivity

theorem naicsFactor_nonneg (o : Opportunity) (c : Capability) :
    0 ≤ naicsFactor o c := by
  unfold naicsFactor
  split <;> norm_num

theorem agencyFactor_nonneg (o : Opportunity) (c : Capability) :
    0 ≤ agencyFactor o c := by
  unfold agencyFactor
  split <;> norm_num

theorem setAsideFactor_nonneg (o : Opportunity) (c : Capability) :
    0 ≤ setAsideFactor o c := by
  unfold setAsideFactor
  split <;> norm_num

/-- C1. For every opportunity and every capability, the `match_percentage`
returned by `calculate_match` satisfies `0 ≤ match_percentage ≤ 100`; the
score is accumulated from non-negative factor contributions starting at 0
and is capped at 100 (via `min score 100`) before being returned. -/
theorem claim_C1_score_bound (o : Opportunity) (c : Capability) :
    0 ≤ (calculate_match o c).match_percentage ∧
    (calculate_match o c).match_percentage ≤ 100 ∧
    (calculate_match o c).match_percentage =
      min (keywordFactor o c + naicsFactor o c + agencyFactor o c +
        setAsideFactor o c) 100 ∧
    0 ≤ keywordFactor o c ∧ 0 ≤ naicsFactor o c ∧
    0 ≤ agencyFactor o c ∧ 0 ≤ setAsideFactor o c := by
  have hsum : 0 ≤ keywordFactor o c + naicsFactor o c + agencyFactor o c +
      setAsideFactor o c := by
    have h1 := keywordFactor_nonneg o c
    have h2 := naicsFactor_nonneg o c
    have h3 := agencyFactor_nonneg o c
    have h4 := setAsideFactor_nonneg o c
    linarith
  refine ⟨?_, ?_, ?_, keywordFactor_nonneg o c, naicsFactor_nonneg o c,
    agencyFactor_nonneg o c, setAsideFactor_nonneg o c⟩
  · rw [calculate_match_eq]
    exact le_min hsum (by norm_num)
  · rw [calculate_match_eq]
    exact min_le_right _ _
  · rw [calculate_match_eq]

/-- Opportunity of spec §8 example 5: title contains "cloud", NAICS matches,
no agency or set-aside. -/
def exOpp1 : Opportunity :=
  { id := "o1", title := "Cloud Migration Support", description := ""
    naics := "541511", agency := "", set_aside := "" }

/-- Capability of spec §8 example 5. -/
def exCap1 : Capability :=
  { id := "c1", name := "Cloud Services", keywords := ["cloud"]
    naics_codes := ["541511"], preferred_agencies := []
    preferred_set_asides := [], active := true }

/-- Capability of spec §8 example 6: two keywords, exactly one occurs in
the opportunity text of `exOpp1`. -/
def exCap2 : Capability :=
  { id := "c2", name := "Two Keywords", keywords := ["cloud", "blockchain"]
    naics_codes := [], preferred_agencies := []
    preferred_set_asides := [], active := true }

/-- C4. The score of `calculate_match` decomposes as the capped sum of
independent factor contributions: keywords contribute
`40 × matched/total` as soon as one keyword matches, NAICS contributes
exactly 30 on membership (for a non-empty opportunity code), agency
contributes exactly 20 at most once on the first preferred-agency
substring hit, and set-aside contributes exactly 10 on membership; a full
keyword match plus NAICS match and nothing else scores 70, and 1 of 2
keywords contributes `40 × 0.5 = 20`. -/
theorem claim_C4_weight_decomposition :
    (∀ o c, (calculate_match o c).match_percentage =
      min (keywordFactor o c + naicsFactor o c + agencyFactor o c +
        setAsideFactor o c) 100) ∧
    (∀ o c, keywordFactor o c =
      if matchedKeywords o c = [] then 0
      else 40 * (((matchedKeywords o c).length : ℚ) /
        (c.keywords.length : ℚ))) ∧
    (∀ o c, naicsFactor o c =
      if o.naics ≠ "" ∧ o.naics ∈ c.naics_codes then 30 else 0) ∧
    (∀ o c, agencyFactor o c =
      if o.agency ≠ "" ∧ c.preferred_agencies.any
        (fun pa => charsHasSub (pyLower pa) (pyLower o.agency)) = true
      then 20 else 0) ∧
    (∀ o c, setAsideFactor o c =
      if o.set_aside ≠ "" ∧ o.set_aside ∈ c.preferred_set_asides
      then 10 else 0) ∧
    ((calculate_match exOpp1 exCap1).match_percentage = 70 ∧
      (calculate_match exOpp1 exCap1).match_details.naics_match = true ∧
      (calculate_match exOpp1 exCap1).match_details.agency_match = false) ∧
    (keywordFactor exOpp1 exCap2 = 40 * (1 / 2 : ℚ) ∧
      (calculate_match exOpp1 exCap2).match_percentage = 20) := by
  refine ⟨fun o c => by rw [calculate_match_eq], fun o c => rfl,
    fun o c => rfl, fun o c => rfl, fun o c => rfl, ⟨?_, ?_, ?_⟩, ?_, ?_⟩
  · norm_num +decide [exOpp1, exCap1, calculate_match, keywordStep,
      naicsStep, agencyStep, setAsideStep, min_def]
  · norm_num +decide [exOpp1, exCap1, calculate_match, keywordStep,
      naicsStep, agencyStep, setAsideStep]
  · norm_num +decide [exOpp1, exCap1, calculate_match, keywordStep,
      naicsStep, agencyStep, setAsideStep]
  · norm_num +decide [exOpp1, exCap2, keywordFactor, matchedKeywords]
  · norm_num +decide [exOpp1, exCap2, calculate_match, keywordStep,
      naicsStep, agencyStep, setAsideStep, min_def]

/-- C10. For a capability whose keyword list is absent/empty,
`calculate_match` records no keyword matches and the keyword factor
contributes 0; moreover the proportional-credit division is reached only
when at least one keyword matched, in which case the divisor (the keyword
count) is provably non-zero — so no division by zero can occur. -/
theorem claim_C10_empty_keywords (o : Opportunity) (c : Capability)
    (h : c.keywords = []) :
    (calculate_match o c).match_details.keyword_matches = [] ∧
    keywordFactor o c = 0 ∧
    (calculate_match o c).match_percentage =
      min (naicsFactor o c + agencyFactor o c + setAsideFactor o c) 100 ∧
    (∀ o' c', matchedKeywords o' c' ≠ [] → (c'.keywords.length : ℚ) ≠ 0) := by
  have hm : matchedKeywords o c = [] := by
    rw [matchedKeywords, h]
    rfl
  have hf : keywordFactor o c = 0 := by
    rw [keywordFactor, if_pos hm]
  refine ⟨?_, hf, ?_, ?_⟩
  · rw [calculate_match_eq]
    exact hm
  · rw [calculate_match_eq, hf, zero_add]
  · intro o' c' hne
    have hkw : c'.keywords ≠ [] := by
      intro hk
      apply hne
      rw [matchedKeywords, hk]
      rfl
    have : c'.keywords.length ≠ 0 := by
      simpa [List.length_eq_zero] using hkw
    exact_mod_cast this

/-- Capability with an empty keyword list, for the C10 witness. -/
def exCap3 : Capability :=
  { id := "c3", name := "No Keywords", keywords := []
    naics_codes := ["541511"], preferred_agencies := []
    preferred_set_asides := [], active := true }

/-! ## `analyze_opportunity` and the match store -/

/-- A row of the `matches` collection as written by
`OpportunityDB.save_match` (src/database.py lines 161–172); the
`created_at` timestamp is elided (it carries no information used by any
claim). -/
structure MatchRow where
  opportunity_id : String
  capability_id : String
  match_percentage : ℚ
  match_details : MatchDetails
deriving DecidableEq

/-- Embedding of `OpportunityDB.save_match`: a plain `insert_one`, i.e. an append to the
`matches` collection — never an update or merge of an existing row. -/
def save_match (rows : List MatchRow)
    (opportunity_id capability_id : String) (match_percentage : ℚ)
    (match_details : MatchDetails) : List MatchRow :=
  rows ++
    [{ opportunity_id := opportunity_id, capability_id := capability_id
       match_percentage := match_percentage, match_details := match_details }]

/-- Embedding of `OpportunityDB.get_capabilities` (src/database.py lines 141–150):
with `active_only` it scans the collection filtered on the `active` flag,
preserving collection order. -/
def get_capabilities (capabilities : List Capability) (active_only : Bool) :
    List Capability :=
  if active_only then capabilities.filter (fun c => c.active)
  else capabilities

/-- The state of the database as seen by the matcher: the `capabilities`
and `matches` collections. -/
structure DBState where
  capabilities : List Capability
  matchRows : List MatchRow
deriving DecidableEq

/-- The per-capability loop of `analyze_opportunity`
(src/capability_matcher.py lines 81–91): one `calculate_match` per
capability; on a strictly positive percentage the match is saved to the
store and appended to the result list. -/
def analyzeLoop (opportunity : Opportunity) :
    List Capability → List MatchRow → List MatchRow × List MatchResult
  | [], matchesDb => (matchesDb, [])
  | capability :: rest, matchesDb =>
    let m := calculate_match opportunity capability
    if 0 < m.match_percentage then
      let db1 := save_match matchesDb opportunity.id m.capability_id
        m.match_percentage m.match_details
      let r := analyzeLoop opportunity rest db1
      (r.1, m :: r.2)
    else analyzeLoop opportunity rest matchesDb

/-- One insertion step of the stable descending sort performed by Python's
`matches.sort(key=lambda x: x['match_percentage'], reverse=True)`
(line 93): walk past strictly greater percentages, insert before the first
element that is not strictly greater — ties keep insertion order. -/
def insertDesc (m : MatchResult) : List MatchResult → List MatchResult
  | [] => [m]
  | x :: xs =>
    if m.match_percentage < x.match_percentage then x :: insertDesc m xs
    else m :: x :: xs

/-- Stable descending sort by `match_percentage`. -/
def sortDesc : List MatchResult → List MatchResult
  | [] => []
  | x :: xs => insertDesc x (sortDesc xs)

/-- Embedding of `CapabilityMatcher.analyze_opportunity` (src/capability_matcher.py
lines 75–95): fetch active capabilities, loop, then sort the kept results
descending by percentage. -/
def analyze_opportunity (db : DBState) (opportunity : Opportunity) :
    DBState × List MatchResult :=
  let capabilities := get_capabilities db.capabilities true
  let r := analyzeLoop opportunity capabilities db.matchRows
  ({ db with matchRows := r.1 }, sortDesc r.2)

/-- The Match row written for result `m` of opportunity `o`. -/
def rowOf (o : Opportunity) (m : MatchResult) : MatchRow :=
  { opportunity_id := o.id, capability_id := m.capability_id
    match_percentage := m.match_percentage
    match_details := m.match_details }

/-- Spec-side description of the kept results: the strictly-positive
matches of the scanned capabilities, in scan order. -/
def keptMatches (o : Opportunity) (capabilities : List Capability) :
    List MatchResult :=
  (capabilities.map (calculate_match o)).filter
    (fun m => decide (0 < m.match_percentage))

theorem analyzeLoop_eq (o : Opportunity) (caps : List Capability)
    (rows : List MatchRow) :
    analyzeLoop o caps rows =
      (rows ++ (keptMatches o caps).map (rowOf o), keptMatches o caps) := by
  induction caps generalizing rows with
  | nil => simp [analyzeLoop, keptMatches]
  | cons c rest ih =>
    by_cases h : 0 < (calculate_match o c).match_percentage
    · simp [analyzeLoop, keptMatches, h, ih, save_match, rowOf,
        List.filter_cons, List.append_assoc]
    · simp [analyzeLoop, keptMatches, h, ih, List.filter_cons]

theorem insertDesc_perm (m : MatchResult) (l : List MatchResult) :
    List.Perm (insertDesc m l) (m :: l) := by
  induction l with
  | nil => simp [insertDesc]
  | cons x xs ih =>
    rw [insertDesc]
    split
    · exact (ih.cons x).trans (List.Perm.swap m x xs)
    · exact List.Perm.refl _

theorem sortDesc_perm (l : List MatchResult) :
    List.Perm (sortDesc l) l := by
  induction l with
  | nil => exact List.Perm.refl _
  | cons x xs ih => exact (insertDesc_perm x (sortDesc xs)).trans (ih.cons x)

theorem insertDesc_pairwise (m : MatchResult) (l : List MatchResult)
    (h : l.Pairwise (fun a b => b.match_percentage ≤ a.match_percentage)) :
    (insertDesc m l).Pairwise
      (fun a b => b.match_percentage ≤ a.match_percentage) := by
  induction l with
  | nil => simp [insertDesc]
  | cons x xs ih =>
    rw [List.pairwise_cons] at h
    obtain ⟨hx, hxs⟩ := h
    rw [insertDesc]
    split
    · rename_i hlt
      rw [List.pairwise_cons]
      refine ⟨?_, ih hxs⟩
      intro b hb
      rcases List.mem_cons.mp ((insertDesc_perm m xs).mem_iff.mp hb)
        with hb | hb
      · rw [hb]
        exact le_of_lt hlt
      · exact hx b hb
    · rename_i hge
      rw [not_lt] at hge
      rw [List.pairwise_cons]
      refine ⟨?_, List.pairwise_cons.mpr ⟨hx, hxs⟩⟩
      intro b hb
      rcases List.mem_cons.mp hb with hb | hb
      · rw [hb]
        exact hge
      · exact le_trans (hx b hb) hge

theorem sortDesc_pairwise (l : List MatchResult) :
    (sortDesc l).Pairwise
      (fun a b => b.match_percentage ≤ a.match_percentage) := by
  induction l with
  | nil => simp [sortDesc]
  | cons x xs ih => exact insertDesc_pairwise x (sortDesc xs) ih

theorem insertDesc_filter (m : MatchResult) (l : List MatchResult) (q : ℚ) :
    (insertDesc m l).filter (fun x => decide (x.match_percentage = q)) =
      if m.match_percentage = q then
        m :: l.filter (fun x => decide (x.match_percentage = q))
      else l.filter (fun x => decide (x.match_percentage = q)) := by
  induction l with
  | nil =>
    by_cases h : m.match_percentage = q <;> simp [insertDesc, h]
  | cons x xs ih =>
    rw [insertDesc]
    split
    · rename_i hlt
      by_cases hm : m.match_percentage = q
      · have hx : ¬ x.match_percentage = q := by
          intro hxq
          rw [hm] at hlt
          rw [hxq] at hlt
          exact lt_irrefl q hlt
        simp [List.filter_cons, hm, hx, ih]
      · by_cases hx : x.match_percentage = q <;>
          simp [List.filter_cons, hm, hx, ih]
    · by_cases hm : m.match_percentage = q <;>
        simp [List.filter_cons, hm]

theorem sortDesc_filter (l : List MatchResult) (q : ℚ) :
    (sortDesc l).filter (fun x => decide (x.match_percentage = q)) =
      l.filter (fun x => decide (x.match_percentage = q)) := by
  induction l with
  | nil => rfl
  | cons x xs ih =>
    rw [sortDesc, insertDesc_filter]
    by_cases hx : x.match_percentage = q <;> simp [List.filter_cons, hx, ih]

/-- C5. `analyze_opportunity` computes a match per active capability,
appends a new Match row for exactly the strictly-positive results (never
touching existing rows or the capabilities collection), and returns
exactly those strictly-positive results, sorted descending by
`match_percentage` with a stable sort (for every percentage value the
subsequence at that value keeps the capability-scan order). -/
theorem claim_C5_analyze_opportunity (db : DBState) (o : Opportunity) :
    (analyze_opportunity db o).1.capabilities = db.capabilities ∧
    (analyze_opportunity db o).1.matchRows =
      db.matchRows ++
        (keptMatches o (get_capabilities db.capabilities true)).map (rowOf o) ∧
    List.Perm (analyze_opportunity db o).2
      (keptMatches o (get_capabilities db.capabilities true)) ∧
    (analyze_opportunity db o).2.Pairwise
      (fun a b => b.match_percentage ≤ a.match_percentage) ∧
    (∀ q : ℚ,
      (analyze_opportunity db o).2.filter
          (fun x => decide (x.match_percentage = q)) =
        (keptMatches o (get_capabilities db.capabilities true)).filter
          (fun x => decide (x.match_percentage = q))) ∧
    (analyze_opportunity db o).2.all
      (fun m => decide (0 < m.match_percentage)) = true := by
  have hloop := analyzeLoop_eq o (get_capabilities db.capabilities true)
    db.matchRows
  refine ⟨?_, ?_, ?_, ?_, ?_, ?_⟩
  · rfl
  · rw [analyze_opportunity]
    rw [hloop]
  · rw [analyze_opportunity]
    rw [hloop]
    exact sortDesc_perm _
  · rw [analyze_opportunity]
    exact sortDesc_pairwise _
  · intro q
    rw [analyze_opportunity]
    rw [hloop]
    exact sortDesc_filter _ q
  · rw [analyze_opportunity]
    rw [hloop]
    rw [List.all_eq_true]
    intro m hm
    have hmem := (sortDesc_perm (keptMatches o
      (get_capabilities db.capabilities true))).mem_iff.mp hm
    rw [keptMatches] at hmem
    have := List.of_mem_filter hmem
    simpa using this

/-! ## Sync manager -/

/-- A raw opportunity record as returned by the source; `naics_desc` and
`fetched_at` are the fields `incremental_sync` writes into the record
before storing (absent on arrival: `""` / `none`). -/
structure Record where
  url : String
  naics_desc : String
  fetched_at : Option Nat
deriving DecidableEq

/-- One entry of the `naics` list of `config.yaml`. -/
structure NaicsEntry where
  code : String
  desc : String
deriving DecidableEq

/-- The configuration read by `SyncManager._load_config`, restricted to
the part the sync loops use. -/
structure SyncConfig where
  naics : List NaicsEntry
deriving DecidableEq

/-- Environment of one sync run: the loaded config, the external source
(`SamApi.search`; `none` models an `ApiException`), the urls already in
the `opportunities` collection, and the current time. The fetch arguments
are from-date, to-date, category code, limit and offset. -/
structure SyncEnv where
  config : SyncConfig
  fetch : Nat → Nat → String → Nat → Nat → Option (List Record)
  store : List String
  now : Nat

/-- The persisted `sync_state` document (`_id = "main"`), as created by
`SyncManager._load_sync_state`. -/
structure SyncState where
  last_sync_date : Option Nat
  last_opportunity_id : Option String
  total_synced : Nat
  last_sync_timestamp : Option Nat
deriving DecidableEq

/-- Embedding of `SyncManager.search_opportunities` (src/sync_manager.py lines 60–91):
one paginated request; an `ApiException` is caught, logged and turned into
an empty page. -/
def search_opportunities (env : SyncEnv) (from_date to_date : Nat)
    (naics : String) (limit offset : Nat) : List Record :=
  match env.fetch from_date to_date naics limit offset with
  | some records => records
  | none => []

/-- The date window start of `incremental_sync` (lines 102–109):
`last_sync_date + 1` day when a cursor exists, else `now − 30` days. -/
def incFromDate (st : SyncState) (now : Nat) : Nat :=
  match st.last_sync_date with
  | some d => d + 1
  | none => now - 30

/-- The per-code budget `max_opportunities // len(config["naics"])`
(line 119). -/
def incPer (env : SyncEnv) (max_opportunities : Nat) : Nat :=
  max_opportunities / env.config.naics.length

/-- The per-NAICS fetch/dedup loop of `incremental_sync` (lines 121–140):
one page per code; records whose `url` is already in the Store are
dropped, the genuinely new ones are enriched with `naics_desc` and
`fetched_at`; after every code the loop sleeps 2 (appended to the sleep
log), whether or not the fetch succeeded or returned records. -/
def incFetchLoop (env : SyncEnv) (from_date to_date per_naics : Nat) :
    List NaicsEntry → List Record × List Nat
  | [] => ([], [])
  | naics :: rest =>
    let opportunities :=
      search_opportunities env from_date to_date naics.code per_naics 0
    let news :=
      (opportunities.filter (fun opp => !env.store.contains opp.url)).map
        (fun opp =>
          { opp with naics_desc := naics.desc, fetched_at := some env.now })
    let r := incFetchLoop env from_date to_date per_naics rest
    (news ++ r.1, 2 :: r.2)

/-- All records returned by the per-code fetches of one incremental run,
in scan order (the spec-side reading of "the fetched records"). -/
def fetchedAll (env : SyncEnv) (from_date to_date per_naics : Nat)
    (ns : List NaicsEntry) : List Record :=
  (ns.map
    (fun naics =>
      search_opportunities env from_date to_date naics.code per_naics 0)).flatten

/-- The result dict of `incremental_sync` (lines 154–159); dates are the
window bounds (the source formats them as strings). -/
structure IncResult where
  new_opportunities : Nat
  from_date : Nat
  to_date : Nat
  total_synced : Nat
deriving DecidableEq

/-- Everything observable about one `incremental_sync` run: the returned
dict or the raised exception, the persisted sync state after the run,
whether a state write was persisted, the stored urls after the run, and
the sleep log. -/
structure IncOutcome where
  result : Except String IncResult
  state : SyncState
  stateSaved : Bool
  store : List String
  sleeps : List Nat

/-- Embedding of `SyncManager.incremental_sync` (src/sync_manager.py lines 92–159).
`upsertOk` / `saveOk` inject Store-write failures of
`bulk_upsert_opportunities` and of the `replace_one` in
`_save_sync_state`; `result = .error` models the raised exception, with
`state` / `store` holding whatever was persisted before the raise. An
empty `naics` config makes the source raise `ZeroDivisionError` at the
budget split (line 119). -/
def incremental_sync (env : SyncEnv) (st : SyncState)
    (upsertOk saveOk : Bool) (max_opportunities : Nat) : IncOutcome :=
  if env.config.naics.length = 0 then
    { result := .error "ZeroDivisionError", state := st, stateSaved := false
      store := env.store, sleeps := [] }
  else
    let from_date := incFromDate st env.now
    let to_date := env.now
    let r := incFetchLoop env from_date to_date
      (incPer env max_opportunities) env.config.naics
    let all_new_opportunities := r.1
    if all_new_opportunities = [] then
      { result := .ok { new_opportunities := 0, from_date := from_date,
                        to_date := to_date, total_synced := st.total_synced }
        state := st, stateSaved := false, store := env.store, sleeps := r.2 }
    else if upsertOk then
      let count := all_new_opportunities.length
      let store1 := env.store ++ all_new_opportunities.map (fun opp => opp.url)
      let st1 := { st with last_sync_date := some to_date,
                           total_synced := st.total_synced + count }
      if saveOk then
        let st2 := { st1 with last_sync_timestamp := some env.now }
        { result := .ok { new_opportunities := count, from_date := from_date,
                          to_date := to_date, total_synced := st2.total_synced }
          state := st2, stateSaved := true, store := store1, sleeps := r.2 }
      else
        { result := .error "sync state write failed", state := st
          stateSaved := false, store := store1, sleeps := r.2 }
    else
      { result := .error "bulk upsert failed", state := st
        stateSaved := false, store := env.store, sleeps := r.2 }

theorem incFetchLoop_snd (env : SyncEnv) (from_date to_date per_naics : Nat)
    (ns : List NaicsEntry) :
    (incFetchLoop env from_date to_date per_naics ns).2 =
      ns.map (fun _ => 2) := by
  induction ns with
  | nil => rfl
  | cons n rest ih => simp [incFetchLoop, ih]

theorem incFetchLoop_urls (env : SyncEnv) (from_date to_date per_naics : Nat)
    (ns : List NaicsEntry) :
    (incFetchLoop env from_date to_date per_naics ns).1.map
        (fun rec => rec.url) =
      ((fetchedAll env from_date to_date per_naics ns).filter
        (fun rec => !env.store.contains rec.url)).map (fun rec => rec.url) := by
  induction ns with
  | nil => rfl
  | cons n rest ih =>
    simp only [fetchedAll] at ih
    simp only [fetchedAll, incFetchLoop, List.map_cons, List.flatten_cons,
      List.filter_append, List.map_append, List.map_map, ih]
    rfl

theorem incFetchLoop_length (env : SyncEnv) (from_date to_date per_naics : Nat)
    (ns : List NaicsEntry) :
    (incFetchLoop env from_date to_date per_naics ns).1.length =
      ((fetchedAll env from_date to_date per_naics ns).filter
        (fun rec => !env.store.contains rec.url)).length := by
  have h := incFetchLoop_urls env from_date to_date per_naics ns
  have h1 := congrArg List.length h
  simpa using h1

/-- Branch lemma: the zero-new-records run (lines 151–153) mutates
nothing and reports zero. -/
theorem incremental_sync_empty (env : SyncEnv) (st : SyncState)
    (upsertOk saveOk : Bool) (max_opportunities : Nat)
    (hn : ¬ env.config.naics.length = 0)
    (he : (incFetchLoop env (incFromDate st env.now) env.now
      (incPer env max_opportunities) env.config.naics).1 = []) :
    incremental_sync env st upsertOk saveOk max_opportunities =
      { result := .ok
          { new_opportunities := 0
            from_date := incFromDate st env.now
            to_date := env.now
            total_synced := st.total_synced }
        state := st, stateSaved := false, store := env.store
        sleeps := env.config.naics.map (fun _ => 2) } := by
  simp only [incremental_sync]
  rw [if_neg hn, if_pos he, incFetchLoop_snd]

/-- Branch lemma: the successful run with new records (lines 143–150). -/
theorem incremental_sync_success (env : SyncEnv) (st : SyncState)
    (max_opportunities : Nat)
    (hn : ¬ env.config.naics.length = 0)
    (he : ¬ (incFetchLoop env (incFromDate st env.now) env.now
      (incPer env max_opportunities) env.config.naics).1 = []) :
    incremental_sync env st true true max_opportunities =
      { result := .ok
          { new_opportunities :=
              (incFetchLoop env (incFromDate st env.now) env.now
                (incPer env max_opportunities) env.config.naics).1.length
            from_date := incFromDate st env.now
            to_date := env.now
            total_synced := st.total_synced +
              (incFetchLoop env (incFromDate st env.now) env.now
                (incPer env max_opportunities) env.config.naics).1.length }
        state :=
          { st with
            last_sync_date := some env.now
            total_synced := st.total_synced +
              (incFetchLoop env (incFromDate st env.now) env.now
                (incPer env max_opportunities) env.config.naics).1.length
            last_sync_timestamp := some env.now }
        stateSaved := true
        store := env.store ++
          (incFetchLoop env (incFromDate st env.now) env.now
            (incPer env max_opportunities) env.config.naics).1.map
              (fun opp => opp.url)
        sleeps := env.config.naics.map (fun _ => 2) } := by
  simp only [incremental_sync]
  rw [if_neg hn, if_neg he, incFetchLoop_snd]
  simp

/-- Branch lemma: the bulk upsert raises (lines 143–144); nothing is
persisted. -/
theorem incremental_sync_upsert_fail (env : SyncEnv) (st : SyncState)
    (saveOk : Bool) (max_opportunities : Nat)
    (hn : ¬ env.config.naics.length = 0)
    (he : ¬ (incFetchLoop env (incFromDate st env.now) env.now
      (incPer env max_opportunities) env.config.naics).1 = []) :
    incremental_sync env st false saveOk max_opportunities =
      { result := .error "bulk upsert failed", state := st
        stateSaved := false, store := env.store
        sleeps := env.config.naics.map (fun _ => 2) } := by
  simp only [incremental_sync]
  rw [if_neg hn, if_neg he, incFetchLoop_snd]
  simp

/-- Branch lemma: `_save_sync_state`'s `replace_one` raises (lines 51–58,
150); the records were upserted but the persisted sync state is
untouched. -/
theorem incremental_sync_save_fail (env : SyncEnv) (st : SyncState)
    (max_opportunities : Nat)
    (hn : ¬ env.config.naics.length = 0)
    (he : ¬ (incFetchLoop env (incFromDate st env.now) env.now
      (incPer env max_opportunities) env.config.naics).1 = []) :
    incremental_sync env st true false max_opportunities =
      { result := .error "sync state write failed", state := st
        stateSaved := false
        store := env.store ++
          (incFetchLoop env (incFromDate st env.now) env.now
            (incPer env max_opportunities) env.config.naics).1.map
              (fun opp => opp.url)
        sleeps := env.config.naics.map (fun _ => 2) } := by
  simp only [incremental_sync]
  rw [if_neg hn, if_neg he, incFetchLoop_snd]
  simp

/-- C2. After a successful `incremental_sync` run (no injected store
failure), the run returns a result dict, `total_synced` never decreases,
and the cursor `last_sync_date`, once set, is advanced monotonically
(given that the run's `now` is not before the prior cursor). -/
theorem claim_C2_monotonic_cursor (env : SyncEnv) (st : SyncState)
    (max_opportunities : Nat) (hn : env.config.naics ≠ [])
    (hnow : st.last_sync_date.getD 0 ≤ env.now) :
    (∃ res, (incremental_sync env st true true max_opportunities).result =
      .ok res) ∧
    st.total_synced ≤
      (incremental_sync env st true true max_opportunities).state.total_synced ∧
    (∀ d, st.last_sync_date = some d →
      ∃ d', (incremental_sync env st true true
          max_opportunities).state.last_sync_date = some d' ∧ d ≤ d') := by
  have hn0 : ¬ env.config.naics.length = 0 := by
    simpa [List.length_eq_zero] using hn
  by_cases he : (incFetchLoop env (incFromDate st env.now) env.now
      (incPer env max_opportunities) env.config.naics).1 = []
  · rw [incremental_sync_empty env st true true max_opportunities hn0 he]
    exact ⟨⟨_, rfl⟩, le_refl _, fun d hd => ⟨d, hd, le_refl d⟩⟩
  · rw [incremental_sync_success env st max_opportunities hn0 he]
    refine ⟨⟨_, rfl⟩, by simp, ?_⟩
    intro d hd
    refine ⟨env.now, rfl, ?_⟩
    rw [hd] at hnow
    simpa using hnow

/-- C3. On a successful run, a fetched record whose url is already stored
is dropped from the new-records set, so `total_synced` grows exactly by
the number of fetched records whose url was not previously stored. -/
theorem claim_C3_dedup (env : SyncEnv) (st : SyncState)
    (max_opportunities : Nat) (hn : env.config.naics ≠ []) :
    (incremental_sync env st true true max_opportunities).state.total_synced =
      st.total_synced +
        ((fetchedAll env (incFromDate st env.now) env.now
          (incPer env max_opportunities) env.config.naics).filter
            (fun record => !env.store.contains record.url)).length ∧
    (incFetchLoop env (incFromDate st env.now) env.now
        (incPer env max_opportunities) env.config.naics).1.map
        (fun record => record.url) =
      ((fetchedAll env (incFromDate st env.now) env.now
        (incPer env max_opportunities) env.config.naics).filter
          (fun record => !env.store.contains record.url)).map
        (fun record => record.url) := by
  have hn0 : ¬ env.config.naics.length = 0 := by
    simpa [List.length_eq_zero] using hn
  have hlen := incFetchLoop_length env (incFromDate st env.now) env.now
    (incPer env max_opportunities) env.config.naics
  refine ⟨?_, incFetchLoop_urls env (incFromDate st env.now) env.now
    (incPer env max_opportunities) env.config.naics⟩
  by_cases he : (incFetchLoop env (incFromDate st env.now) env.now
      (incPer env max_opportunities) env.config.naics).1 = []
  · rw [incremental_sync_empty env st true true max_opportunities hn0 he]
    have h0 : ((fetchedAll env (incFromDate st env.now) env.now
        (incPer env max_opportunities) env.config.naics).filter
          (fun record => !env.store.contains record.url)).length = 0 := by
      rw [← hlen, he]
      rfl
    show st.total_synced = st.total_synced + _
    rw [h0]
    rfl
  · rw [incremental_sync_success env st max_opportunities hn0 he]
    simp [hlen]

/-- C6. A run that finds zero new records (every fetched record already
stored, or nothing fetched) mutates nothing: the persisted sync state and
store are unchanged, no state write is issued, and the returned dict
reports `new_opportunities = 0`. -/
theorem claim_C6_no_new_no_mutation (env : SyncEnv) (st : SyncState)
    (upsertOk saveOk : Bool) (max_opportunities : Nat)
    (hn : env.config.naics ≠ [])
    (hall : (fetchedAll env (incFromDate st env.now) env.now
      (incPer env max_opportunities) env.config.naics).all
        (fun record => env.store.contains record.url) = true) :
    incremental_sync env st upsertOk saveOk max_opportunities =
      { result := .ok
          { new_opportunities := 0
            from_date := incFromDate st env.now
            to_date := env.now
            total_synced := st.total_synced }
        state := st, stateSaved := false, store := env.store
        sleeps := env.config.naics.map (fun _ => 2) } := by
  have hn0 : ¬ env.config.naics.length = 0 := by
    simpa [List.length_eq_zero] using hn
  have hfilter : (fetchedAll env (incFromDate st env.now) env.now
      (incPer env max_opportunities) env.config.naics).filter
        (fun record => !env.store.contains record.url) = [] := by
    rw [List.filter_eq_nil_iff]
    intro a ha
    have := List.all_eq_true.mp hall a ha
    simpa using this
  have he : (incFetchLoop env (incFromDate st env.now) env.now
      (incPer env max_opportunities) env.config.naics).1 = [] := by
    have hlen := incFetchLoop_length env (incFromDate st env.now) env.now
      (incPer env max_opportunities) env.config.naics
    rw [hfilter] at hlen
    simpa [List.length_eq_zero] using hlen
  exact incremental_sync_empty env st upsertOk saveOk max_opportunities hn0 he

/-- C8. If a Store write fails during the run (the bulk upsert or the
sync-state save raises), the error propagates, the run aborts, and the
persisted sync state is untouched — the cursor is not advanced and
`total_synced` is unchanged, so the next run recomputes the same window
from the old cursor. -/
theorem claim_C8_store_failure_aborts (env : SyncEnv) (st : SyncState)
    (upsertOk saveOk : Bool) (max_opportunities : Nat)
    (hn : env.config.naics ≠ [])
    (hfail : upsertOk = false ∨ saveOk = false)
    (hnew : (fetchedAll env (incFromDate st env.now) env.now
      (incPer env max_opportunities) env.config.naics).any
        (fun record => !env.store.contains record.url) = true) :
    (∃ msg, (incremental_sync env st upsertOk saveOk
      max_opportunities).result = .error msg) ∧
    (incremental_sync env st upsertOk saveOk max_opportunities).state = st ∧
    (incremental_sync env st upsertOk saveOk
      max_opportunities).stateSaved = false := by
  have hn0 : ¬ env.config.naics.length = 0 := by
    simpa [List.length_eq_zero] using hn
  have he : ¬ (incFetchLoop env (incFromDate st env.now) env.now
      (incPer env max_opportunities) env.config.naics).1 = [] := by
    obtain ⟨a, ha, hpa⟩ := List.any_eq_true.mp hnew
    have hmem : a ∈ (fetchedAll env (incFromDate st env.now) env.now
        (incPer env max_opportunities) env.config.naics).filter
          (fun record => !env.store.contains record.url) :=
      List.mem_filter.mpr ⟨ha, hpa⟩
    have hlen := incFetchLoop_length env (incFromDate st env.now) env.now
      (incPer env max_opportunities) env.config.naics
    intro h0
    rw [h0] at hlen
    have : (fetchedAll env (incFromDate st env.now) env.now
        (incPer env max_opportunities) env.config.naics).filter
          (fun record => !env.store.contains record.url) = [] := by
      have := hlen.symm
      simpa [List.length_eq_zero] using this
    rw [this] at hmem
    exact absurd hmem (List.not_mem_nil a)
  cases hu : upsertOk with
  | false =>
    rw [incremental_sync_upsert_fail env st saveOk max_opportunities hn0 he]
    exact ⟨⟨_, rfl⟩, rfl, rfl⟩
  | true =>
    have hs : saveOk = false := by
      rcases hfail with h | h
      · rw [hu] at h
        exact absurd h (by simp)
      · exact h
    rw [hs]
    rw [incremental_sync_save_fail env st max_opportunities hn0 he]
    exact ⟨⟨_, rfl⟩, rfl, rfl⟩

/-- C9. Every `incremental_sync` run over N configured category codes
issues exactly N sleeps of the fixed 2-unit throttle interval, one per
code, regardless of fetch success, failure or emptiness and regardless of
store-write failures. -/
theorem claim_C9_throttle (env : SyncEnv) (st : SyncState)
    (upsertOk saveOk : Bool) (max_opportunities : Nat)
    (hn : env.config.naics ≠ []) :
    (incremental_sync env st upsertOk saveOk max_opportunities).sleeps =
      env.config.naics.map (fun _ => 2) ∧
    (incremental_sync env st upsertOk saveOk
      max_opportunities).sleeps.length = env.config.naics.length ∧
    (∀ s ∈ (incremental_sync env st upsertOk saveOk
      max_opportunities).sleeps, s = 2) := by
  have hn0 : ¬ env.config.naics.length = 0 := by
    simpa [List.length_eq_zero] using hn
  have hs : (incremental_sync env st upsertOk saveOk
      max_opportunities).sleeps = env.config.naics.map (fun _ => 2) := by
    simp only [incremental_sync]
    rw [if_neg hn0]
    split_ifs <;> rw [incFetchLoop_snd]
  refine ⟨hs, ?_, ?_⟩
  · rw [hs]
    simp
  · rw [hs]
    intro s hsm
    obtain ⟨a, _, ha⟩ := List.mem_map.mp hsm
    exact ha.symm

/-- The result dict of `full_sync` (lines 217–221). -/
structure FullResult where
  total_synced : Nat
  from_date : Nat
  to_date : Nat
deriving DecidableEq

/-- Everything observable about one `full_sync` run. -/
structure FullOutcome where
  result : FullResult
  state : SyncState
  stateSaved : Bool
  sleeps : List Nat

/-- The per-code `while True` pagination of `full_sync` (src/sync_manager.py
lines 175–210), with explicit fuel (the source loop is bounded: it stops at
an empty page or once `naics_total ≥ batch_size * 3`, and every non-final
iteration adds at least one record). Arguments after `batch_size`: fuel,
`offset`, `naics_total`; the result is the code's total and its sleep log
(one 3-unit sleep per fetched page, emitted before the cap check, as in the
source). Every fetched record is upserted unconditionally — the store
contents are not threaded here because no claim depends on them. -/
def fullSyncCode (env : SyncEnv) (from_date to_date : Nat) (code : String)
    (batch_size : Nat) : Nat → Nat → Nat → Nat × List Nat
  | 0, _, naics_total => (naics_total, [])
  | fuel + 1, offset, naics_total =>
    let opportunities :=
      search_opportunities env from_date to_date code batch_size offset
    if opportunities = [] then (naics_total, [])
    else
      let count := opportunities.length
      let naics_total1 := naics_total + count
      if batch_size * 3 ≤ naics_total1 then (naics_total1, [3])
      else
        let r := fullSyncCode env from_date to_date code batch_size fuel
          (offset + batch_size) naics_total1
        (r.1, 3 :: r.2)

/-- Embedding of `SyncManager.full_sync` (src/sync_manager.py lines 161–221): page
through every configured code over a `days_back` window, then
unconditionally overwrite the sync state, setting `total_synced` to this
run's cumulative total (the sum over codes of the per-code totals) — not
adding it to the previous value. -/
def full_sync (env : SyncEnv) (st : SyncState) (days_back batch_size : Nat) :
    FullOutcome :=
  let from_date := env.now - days_back
  let to_date := env.now
  let perCode := env.config.naics.map
    (fun naics => fullSyncCode env from_date to_date naics.code batch_size
      (batch_size * 3 + 2) 0 0)
  let total_synced := (perCode.map (fun r => r.1)).sum
  { result := { total_synced := total_synced, from_date := from_date
                to_date := to_date }
    state := { st with last_sync_date := some to_date
                       total_synced := total_synced
                       last_sync_timestamp := some env.now }
    stateSaved := true
    sleeps := (perCode.map (fun r => r.2)).flatten }

/-- C7. Every `full_sync` run updates the sync state unconditionally at the
end — even when zero records were fetched — setting `last_sync_date` to the
run's `to` date and `total_synced` to the run's cumulative total (the sum
of the per-code totals), independent of the previously stored
`total_synced`. -/
theorem claim_C7_full_sync_unconditional (env : SyncEnv) (st : SyncState)
    (days_back batch_size : Nat) :
    (full_sync env st days_back batch_size).stateSaved = true ∧
    (full_sync env st days_back batch_size).state.last_sync_date =
      some env.now ∧
    (full_sync env st days_back batch_size).state.last_sync_timestamp =
      some env.now ∧
    (full_sync env st days_back batch_size).state.total_synced =
      (full_sync env st days_back batch_size).result.total_synced ∧
    (full_sync env st days_back batch_size).result.total_synced =
      ((env.config.naics.map
        (fun naics => (fullSyncCode env (env.now - days_back) env.now
          naics.code batch_size (batch_size * 3 + 2) 0 0).1)).sum) ∧
    (∀ t, (full_sync env { st with total_synced := t } days_back
        batch_size).state.total_synced =
      (full_sync env st days_back batch_size).state.total_synced) := by
  refine ⟨rfl, rfl, rfl, rfl, ?_, fun t => rfl⟩
  simp only [full_sync, List.map_map]
  rfl

/-- Witness for C10 at a concrete capability with no keywords. -/
theorem claim_C10_witness :
    exCap3.keywords = [] ∧
    ((calculate_match exOpp1 exCap3).match_details.keyword_matches = [] ∧
      keywordFactor exOpp1 exCap3 = 0 ∧
      (calculate_match exOpp1 exCap3).match_percentage =
        min (naicsFactor exOpp1 exCap3 + agencyFactor exOpp1 exCap3 +
          setAsideFactor exOpp1 exCap3) 100 ∧
      (∀ o' c', matchedKeywords o' c' ≠ [] → (c'.keywords.length : ℚ) ≠ 0)) :=
  ⟨rfl, claim_C10_empty_keywords exOpp1 exCap3 rfl⟩

/-! ## Concrete sync runs for the witnesses -/

/-- One configured code; the source returns one record not yet stored. -/
def syncEnvW : SyncEnv :=
  { config := { naics := [{ code := "541511", desc := "Custom Programming" }] }
    fetch := fun _ _ _ _ _ =>
      some [{ url := "https://x/new", naics_desc := "", fetched_at := none }]
    store := []
    now := 100 }

/-- A prior sync state with a set cursor. -/
def syncStW : SyncState :=
  { last_sync_date := some 50, last_opportunity_id := none
    total_synced := 7, last_sync_timestamp := some 50 }

/-- Like `syncEnvW` but the single fetched record's url is already in the
store. -/
def syncEnvW6 : SyncEnv :=
  { config := { naics := [{ code := "541511", desc := "Custom Programming" }] }
    fetch := fun _ _ _ _ _ =>
      some [{ url := "https://x/1", naics_desc := "", fetched_at := none }]
    store := ["https://x/1"]
    now := 100 }

/-- Two configured codes and a failing source (`ApiException` on every
call). -/
def syncEnvW9 : SyncEnv :=
  { config := { naics := [{ code := "541511", desc := "A" },
                          { code := "541512", desc := "B" }] }
    fetch := fun _ _ _ _ _ => none
    store := []
    now := 100 }

/-- Witness for C2 at a concrete run with one new record. -/
theorem claim_C2_witness :
    syncEnvW.config.naics ≠ [] ∧
    syncStW.last_sync_date.getD 0 ≤ syncEnvW.now ∧
    ((∃ res, (incremental_sync syncEnvW syncStW true true 90).result =
      .ok res) ∧
    syncStW.total_synced ≤
      (incremental_sync syncEnvW syncStW true true 90).state.total_synced ∧
    (∀ d, syncStW.last_sync_date = some d →
      ∃ d', (incremental_sync syncEnvW syncStW true
          true 90).state.last_sync_date = some d' ∧ d ≤ d')) :=
  ⟨by simp [syncEnvW], by norm_num [syncStW, syncEnvW],
    claim_C2_monotonic_cursor syncEnvW syncStW 90 (by simp [syncEnvW])
      (by norm_num [syncStW, syncEnvW])⟩

/-- Witness for C3 at the same concrete run. -/
theorem claim_C3_witness :
    syncEnvW.config.naics ≠ [] ∧
    ((incremental_sync syncEnvW syncStW true true 90).state.total_synced =
      syncStW.total_synced +
        ((fetchedAll syncEnvW (incFromDate syncStW syncEnvW.now) syncEnvW.now
          (incPer syncEnvW 90) syncEnvW.config.naics).filter
            (fun record => !syncEnvW.store.contains record.url)).length ∧
    (incFetchLoop syncEnvW (incFromDate syncStW syncEnvW.now) syncEnvW.now
        (incPer syncEnvW 90) syncEnvW.config.naics).1.map
        (fun record => record.url) =
      ((fetchedAll syncEnvW (incFromDate syncStW syncEnvW.now) syncEnvW.now
        (incPer syncEnvW 90) syncEnvW.config.naics).filter
          (fun record => !syncEnvW.store.contains record.url)).map
        (fun record => record.url)) :=
  ⟨by simp [syncEnvW], claim_C3_dedup syncEnvW syncStW 90 (by simp [syncEnvW])⟩

/-- Witness for C6 at a concrete run whose only fetched record is already
stored. -/
theorem claim_C6_witness :
    syncEnvW6.config.naics ≠ [] ∧
    (fetchedAll syncEnvW6 (incFromDate syncStW syncEnvW6.now) syncEnvW6.now
      (incPer syncEnvW6 90) syncEnvW6.config.naics).all
        (fun record => syncEnvW6.store.contains record.url) = true ∧
    incremental_sync syncEnvW6 syncStW true true 90 =
      { result := .ok
          { new_opportunities := 0
            from_date := incFromDate syncStW syncEnvW6.now
            to_date := syncEnvW6.now
            total_synced := syncStW.total_synced }
        state := syncStW, stateSaved := false, store := syncEnvW6.store
        sleeps := syncEnvW6.config.naics.map (fun _ => 2) } :=
  ⟨by simp [syncEnvW6],
    by simp +decide [fetchedAll, search_opportunities, syncEnvW6],
    claim_C6_no_new_no_mutation syncEnvW6 syncStW true true 90
      (by simp [syncEnvW6])
      (by simp +decide [fetchedAll, search_opportunities, syncEnvW6])⟩

/-- Witness for C8 at a concrete run with one new record and a failing
bulk upsert. -/
theorem claim_C8_witness :
    syncEnvW.config.naics ≠ [] ∧
    (false = false ∨ true = false) ∧
    (fetchedAll syncEnvW (incFromDate syncStW syncEnvW.now) syncEnvW.now
      (incPer syncEnvW 90) syncEnvW.config.naics).any
        (fun record => !syncEnvW.store.contains record.url) = true ∧
    ((∃ msg, (incremental_sync syncEnvW syncStW false true 90).result =
      .error msg) ∧
    (incremental_sync syncEnvW syncStW false true 90).state = syncStW ∧
    (incremental_sync syncEnvW syncStW false true 90).stateSaved = false) :=
  ⟨by simp [syncEnvW], Or.inl rfl,
    by simp +decide [fetchedAll, search_opportunities, syncEnvW],
    claim_C8_store_failure_aborts syncEnvW syncStW false true 90
      (by simp [syncEnvW]) (Or.inl rfl)
      (by simp +decide [fetchedAll, search_opportunities, syncEnvW])⟩

/-- Witness for C9 at a concrete run over two codes whose fetches both
fail: still exactly two 2-unit sleeps. -/
theorem claim_C9_witness :
    syncEnvW9.config.naics ≠ [] ∧
    ((incremental_sync syncEnvW9 syncStW true true 90).sleeps =
      syncEnvW9.config.naics.map (fun _ => 2) ∧
    (incremental_sync syncEnvW9 syncStW true true 90).sleeps.length =
      syncEnvW9.config.naics.length ∧
    (∀ s ∈ (incremental_sync syncEnvW9 syncStW true true 90).sleeps,
      s = 2)) :=
  ⟨by simp [syncEnvW9],
    claim_C9_throttle syncEnvW9 syncStW true true 90 (by simp [syncEnvW9])⟩

end SamSearch
